import Mathlib

/-!
Shallow embedding of the author-written code of the two Ax tutorial
notebooks in `tutorials/external_generation_node.ipynb`:

* the `RandomForestGenerationNode` subclass of `ExternalGenerationNode`
  (its `update_generator_state` and `get_next_candidate` methods),
* the `AxClient` optimization loop and its `evaluate` function,
* the scheduler / early-stopping configuration of the second notebook,
* the pandas post-processing helpers (`savings` computation and
  `early_stopping_exp_to_df`).

Machine floats are modelled by rationals; the numpy random draws of
`np.random.random_sample` are passed in explicitly as rational numbers in
`[0, 1)`; the sklearn regressor is modelled by its recorded training data
(for `fit`) and by an abstract `predict` function (for `predict`).
-/

namespace AxTutorial

/-! ### Python semantics of the `trial.status == "COMPLETED"` comparison

`TrialStatus` in `ax.core.base_trial` is an `(int, Enum)`; its members are
the integers 0..7.  In Python, `==` between an `int`-valued enum member and
a `str` dispatches to `int.__eq__` and then to the reflected `str.__eq__`,
both of which return `NotImplemented`, so the comparison falls back to
identity and evaluates to `False`.  We make this dispatch explicit with a
small universe of Python values. -/

inductive TrialStatus where
  | CANDIDATE
  | STAGED
  | FAILED
  | COMPLETED
  | RUNNING
  | ABANDONED
  | DISPATCHED
  | EARLY_STOPPED
deriving DecidableEq

/-- Integer value of the `(int, Enum)` member, as in `ax.core.base_trial`. -/
def TrialStatus.value : TrialStatus → Int
  | .CANDIDATE => 0
  | .STAGED => 1
  | .FAILED => 2
  | .COMPLETED => 3
  | .RUNNING => 4
  | .ABANDONED => 5
  | .DISPATCHED => 6
  | .EARLY_STOPPED => 7

/-- Small universe of Python values appearing in the comparisons we embed. -/
inductive PyVal where
  | int (n : Int)
  | str (s : String)
deriving DecidableEq

/-- Python `==` on `PyVal`: values of distinct builtin types (an `int` and a
`str`) are never equal; same-typed values compare structurally. -/
def pyEq : PyVal → PyVal → Bool
  | .int a, .int b => a == b
  | .str a, .str b => a == b
  | _, _ => false

/-! ### Data model of the Ax objects the notebook code reads -/

/-- Parameterization: an ordered dict from parameter names to values. -/
abbrev Params := List (String × ℚ)

/-- An arm holds the parameters of a trial. -/
structure Arm where
  parameters : Params
deriving DecidableEq

/-- A trial of the experiment: its index (the key in `experiment.trials`),
its status and its arm. -/
structure Trial where
  index : ℕ
  status : TrialStatus
  arm : Arm
deriving DecidableEq

/-- A search-space parameter: either a `RangeParameter` with bounds, or some
other (non-range) parameter kind. -/
inductive Parameter where
  | range (name : String) (lower upper : ℚ)
  | other (name : String)
deriving DecidableEq

def Parameter.name : Parameter → String
  | .range n _ _ => n
  | .other n => n

/-- Lower bound; only meaningful on `RangeParameter`s. -/
def Parameter.lower : Parameter → ℚ
  | .range _ l _ => l
  | .other _ => 0

/-- Upper bound; only meaningful on `RangeParameter`s. -/
def Parameter.upper : Parameter → ℚ
  | .range _ _ u => u
  | .other _ => 0

def Parameter.isRange : Parameter → Bool
  | .range _ _ _ => true
  | .other _ => false

/-- The search space: an ordered dict of parameters and the list of
parameter constraints (we only need whether it is empty). -/
structure SearchSpace where
  parameters : List Parameter
  parameter_constraints : List String
deriving DecidableEq

/-- The optimization config: the names of its metrics and the objective's
`minimize` flag. -/
structure OptimizationConfig where
  metrics : List String
  minimize : Bool
deriving DecidableEq

/-- The experiment state read by `update_generator_state`. -/
structure Experiment where
  search_space : SearchSpace
  optimization_config : OptimizationConfig
  trials : List Trial
deriving DecidableEq

/-- One row of `data.df`: trial index, metric name, observed mean. -/
structure DataRow where
  trial_index : ℕ
  metric_name : String
  mean : ℚ
deriving DecidableEq

/-- The `Data` object passed to `update_generator_state`. -/
structure Data where
  df : List DataRow
deriving DecidableEq

/-- The sklearn regressor, modelled by the training data recorded by its
last `fit` call. -/
structure Regressor where
  trainX : List (List ℚ)
  trainY : List ℚ
deriving DecidableEq

/-- The mutable fields of a `RandomForestGenerationNode`. -/
structure NodeState where
  num_samples : ℕ
  regressor : Regressor
  parameters : Option (List Parameter)
  minimize : Option Bool
  fit_time_since_gen : ℚ
deriving DecidableEq

/-- Python exceptions the embedded method bodies can raise. -/
inductive PyErr where
  | notImplementedError (msg : String)
  | keyError
  | indexError
  | valueError
deriving DecidableEq

/-! ### `RandomForestGenerationNode.update_generator_state` -/

/-- Evaluation of `[trial_parameters[p] for p in parameter_names]`: a
missing key raises `KeyError`. -/
def lookupParams (arm : Params) : List String → Except PyErr (List ℚ)
  | [] => .ok []
  | n :: ns =>
    match arm.lookup n with
    | none => .error .keyError
    | some v => (lookupParams arm ns).map (fun vs => v :: vs)

/-- Pandas `.item()`: the single element of a one-element series, an error
otherwise. -/
def seriesItem (l : List ℚ) : Except PyErr ℚ :=
  match l with
  | [v] => .ok v
  | _ => .error .valueError

/-- Numpy row assignment `a[i] = v`: out-of-bounds raises `IndexError`. -/
def setAt {α : Type} (xs : List α) (i : ℕ) (v : α) : Except PyErr (List α) :=
  if i < xs.length then .ok (xs.set i v) else .error .indexError

/-- The `for t_idx, trial in experiment.trials.items():` loop of
`update_generator_state`.  Note that the guard is the source's
`trial.status == "COMPLETED"`, an `(int, Enum)`-to-`str` comparison. -/
def fillLoop (data : Data) (parameter_names : List String) (metric0 : String) :
    List Trial → List (List ℚ) → List ℚ → Except PyErr (List (List ℚ) × List ℚ)
  | [], x, y => .ok (x, y)
  | trial :: rest, x, y =>
    if pyEq (.int trial.status.value) (.str "COMPLETED") then do
      let row ← lookupParams trial.arm.parameters parameter_names
      let x1 ← setAt x trial.index row
      let trial_df := data.df.filter fun r =>
        r.trial_index == trial.index && r.metric_name == metric0
      let m ← seriesItem (trial_df.map DataRow.mean)
      let y1 ← setAt y trial.index m
      fillLoop data parameter_names metric0 rest x1 y1
    else
      fillLoop data parameter_names metric0 rest x y

/-- A call of `update_generator_state(experiment, data)` on a node in state
`s`.  Returns the state of the node after the call together with the raised
exception, if any; as in Python, a raise leaves the fields with the values
they had when it fired. -/
def update_generator_state (experiment : Experiment) (data : Data)
    (s : NodeState) : NodeState × Option PyErr :=
  let parameter_names := experiment.search_space.parameters.map Parameter.name
  let metric_names := experiment.optimization_config.metrics
  if experiment.search_space.parameters.any (fun p => !p.isRange) then
    (s, some (.notImplementedError
      "This example only supports RangeParameters in the search space."))
  else if !experiment.search_space.parameter_constraints.isEmpty then
    (s, some (.notImplementedError
      "This example does not support parameter constraints."))
  else if metric_names.length ≠ 1 then
    (s, some (.notImplementedError
      "This example only supports single-objective optimization."))
  else
    let num_completed_trials :=
      (experiment.trials.filter (fun t => t.status == .COMPLETED)).length
    let x0 := List.replicate num_completed_trials
      (List.replicate parameter_names.length (0 : ℚ))
    let y0 := List.replicate num_completed_trials (0 : ℚ)
    match fillLoop data parameter_names (metric_names.headD "")
        experiment.trials x0 y0 with
    | .error e => (s, some e)
    | .ok (x, y) =>
      ({ s with
          regressor := { trainX := x, trainY := y },
          parameters := some experiment.search_space.parameters,
          minimize := some experiment.optimization_config.minimize },
        none)

/-! ### `RandomForestGenerationNode.get_next_candidate`

The numpy random draws `np.random.random_sample([num_samples, len(bounds)])`
are passed in as `unit_samples` (each entry in `[0, 1)`), and the fitted
regressor's `predict` as a function argument. -/

/-- One row of `samples`: `bounds[:, 0] + (bounds[:, 1] - bounds[:, 0]) * u`
for one row `u` of unit draws. -/
def sampleRow (parameters : List Parameter) (u : List ℚ) : List ℚ :=
  (parameters.zip u).map fun pu => pu.1.lower + (pu.1.upper - pu.1.lower) * pu.2

/-- The `samples` array of `get_next_candidate`. -/
def samplesOf (parameters : List Parameter) (unit_samples : List (List ℚ)) :
    List (List ℚ) :=
  unit_samples.map (sampleRow parameters)

/-- Numpy `np.argmin`: index of the first occurrence of the minimum
(0 on the empty array, where numpy raises instead). -/
def argminIdx : List ℚ → ℕ
  | [] => 0
  | [_] => 0
  | a :: b :: rest =>
    if (b :: rest).getD (argminIdx (b :: rest)) 0 < a then argminIdx (b :: rest) + 1
    else 0

/-- Numpy `np.argmax`: index of the first occurrence of the maximum
(0 on the empty array, where numpy raises instead). -/
def argmaxIdx : List ℚ → ℕ
  | [] => 0
  | [_] => 0
  | a :: b :: rest =>
    if a < (b :: rest).getD (argmaxIdx (b :: rest)) 0 then argmaxIdx (b :: rest) + 1
    else 0

/-- The `best_idx = np.argmin(y_pred) if self.minimize else np.argmax(y_pred)`
selection. -/
def bestIdx (minimize : Bool) (y_pred : List ℚ) : ℕ :=
  if minimize then argminIdx y_pred else argmaxIdx y_pred

/-- A call of `get_next_candidate(pending_parameters)` on a node whose state
holds `parameters`, `minimize`, `num_samples` and a fitted regressor with
prediction function `predict`.  The returned dict pairs each parameter name
with the coordinate of the best sample at its position. -/
def get_next_candidate (parameters : List Parameter) (minimize : Bool)
    (num_samples : ℕ) (predict : List (List ℚ) → List ℚ)
    (unit_samples : List (List ℚ)) (pending_parameters : List Params) : Params :=
  let samples := samplesOf parameters unit_samples
  let y_pred := predict samples
  let best_sample := samples.getD (bestIdx minimize y_pred) []
  (parameters.map Parameter.name).zip best_sample

/-! ### The `AxClient` optimization loop of the first notebook -/

/-- Raw data returned by `evaluate`: metric name paired with (mean, sem). -/
abbrev RawData := List (String × ℚ × ℚ)

/-- One observable call made by the loop body on the `AxClient`. -/
inductive CallEvent where
  | getNext (parameterization : Params) (trial_index : ℕ)
  | complete (trial_index : ℕ) (raw_data : RawData)
deriving DecidableEq

instance : Inhabited CallEvent := ⟨.getNext [] 0⟩

def CallEvent.isGetNext : CallEvent → Bool
  | .getNext _ _ => true
  | .complete _ _ => false

def CallEvent.isComplete : CallEvent → Bool
  | .getNext _ _ => false
  | .complete _ _ => true

/-- The `AxClient` interface used by the loop, abstract in its internal
state `σ`. -/
structure AxClient (σ : Type) where
  get_next_trial : σ → (Params × ℕ) × σ
  complete_trial : σ → ℕ → RawData → σ

/-- The notebook's `evaluate`: `{"hartmann6": (hartmann6(x), 0.0)}` with
`x = [parameterization.get(f"x{i+1}") for i in range(6)]`.  The library
function `hartmann6` is abstract; `Params.lookup` models `dict.get`, which
yields `None` for a missing key. -/
def evaluate (hartmann6 : List (Option ℚ) → ℚ) (parameterization : Params) :
    RawData :=
  [("hartmann6",
    hartmann6 ((List.range 6).map fun i =>
      parameterization.lookup ("x" ++ toString (i + 1))), 0)]

/-- The body of `for i in range(n)`, run `n` times: each iteration calls
`get_next_trial`, then `complete_trial` on the returned index with the
evaluation of the returned parameterization.  Returns the list of calls
made and the final client state. -/
def runLoop {σ : Type} (client : AxClient σ)
    (hartmann6 : List (Option ℚ) → ℚ) : ℕ → σ → List CallEvent × σ
  | 0, s => ([], s)
  | n + 1, s =>
    let r := client.get_next_trial s
    let parameterization := r.1.1
    let trial_index := r.1.2
    let s2 := client.complete_trial r.2 trial_index
      (evaluate hartmann6 parameterization)
    let tail := runLoop client hartmann6 n s2
    (CallEvent.getNext parameterization trial_index ::
      CallEvent.complete trial_index (evaluate hartmann6 parameterization) ::
      tail.1,
      tail.2)

/-- The notebook's optimization loop: `for i in range(15): ...`. -/
def optimizationLoop {σ : Type} (client : AxClient σ)
    (hartmann6 : List (Option ℚ) → ℚ) (s : σ) : List CallEvent × σ :=
  runLoop client hartmann6 15 s

/-! ### Scheduler and early-stopping configuration of the second notebook -/

/-- Constructor arguments of the library's `PercentileEarlyStoppingStrategy`;
the notebook only configures these, the percentile logic itself lives in the
library. -/
structure PercentileEarlyStoppingStrategy where
  percentile_threshold : ℚ
  min_progression : ℚ
  min_curves : ℕ
  trial_indices_to_ignore : Option (List ℕ)
  normalize_progressions : Bool
deriving DecidableEq

/-- The notebook's `percentile_early_stopping_strategy` cell. -/
def percentile_early_stopping_strategy : PercentileEarlyStoppingStrategy :=
  { percentile_threshold := 70
    min_progression := 3 / 10
    min_curves := 5
    trial_indices_to_ignore := none
    normalize_progressions := true }

/-- The notebook's `total_trials` cell: 6 under `SMOKE_TEST`, else 15. -/
def total_trials (smoke_test : Bool) : ℕ := if smoke_test then 6 else 15

/-- The `SchedulerOptions` fields the notebook sets. -/
structure SchedulerOptions where
  total_trials : ℕ
  max_pending_trials : ℕ
  early_stopping_strategy : PercentileEarlyStoppingStrategy
deriving DecidableEq

/-- The options passed to the `Scheduler` constructor. -/
def scheduler_options (smoke_test : Bool) : SchedulerOptions :=
  { total_trials := total_trials smoke_test
    max_pending_trials := 5
    early_stopping_strategy := percentile_early_stopping_strategy }

/-! ### The computational-savings estimate

`map_df` is modelled by its `(trial_index, step)` rows, step values being
training progression counts (naturals). -/

/-- Maximum of a group's step series (`.max()` of a nonempty pandas series). -/
def stepMax : List ℕ → ℕ
  | [] => 0
  | s :: rest => max s (stepMax rest)

/-- Minimum of a nonempty list of naturals, used for the smallest group key
of the `groupby` (the `iloc[0]` row of the sorted groupby result). -/
def idxMin : List ℕ → ℕ
  | [] => 0
  | [a] => a
  | a :: b :: rest => min a (idxMin (b :: rest))

/-- The set of trial indices appearing in `map_df` (the groupby keys). -/
def trialIndices (map_df : List (ℕ × ℕ)) : List ℕ :=
  (map_df.map Prod.fst).dedup

/-- The maximum recorded step of one trial:
`map_df.groupby("trial_index")["step"].max()` at key `t`. -/
def trialMaxStep (map_df : List (ℕ × ℕ)) (t : ℕ) : ℕ :=
  stepMax ((map_df.filter fun r => r.1 == t).map Prod.snd)

/-- The series `trial_to_max_steps`: one maximum per trial. -/
def trialToMaxSteps (map_df : List (ℕ × ℕ)) : List ℕ :=
  (trialIndices map_df).map (trialMaxStep map_df)

/-- The smallest trial index in `map_df`: the groupby result is sorted by
key, so this is the key of its `iloc[0]` row. -/
def firstTrialIndex (map_df : List (ℕ × ℕ)) : ℕ :=
  idxMin (map_df.map Prod.fst)

/-- `completed_trial_steps = trial_to_max_steps.iloc[0]`. -/
def completed_trial_steps (map_df : List (ℕ × ℕ)) : ℕ :=
  trialMaxStep map_df (firstTrialIndex map_df)

/-- The notebook's savings estimate:
`1.0 - trial_to_max_steps.sum() / (completed_trial_steps * len(trial_to_max_steps))`. -/
def savings (map_df : List (ℕ × ℕ)) : ℚ :=
  1 - ((trialToMaxSteps map_df).sum : ℚ)
    / ((completed_trial_steps map_df : ℚ) * ((trialToMaxSteps map_df).length : ℚ))

/-! ### `early_stopping_exp_to_df`: relative start / completion times

Each merged dataframe row carries the trial's `time_run_started` and
`time_completed`, modelled as rational timestamps in seconds; subtracting
two of them and taking `.dt.total_seconds()` is rational subtraction. -/

/-- Start and completion timestamps of one trial row. -/
structure TrialTimes where
  time_started : ℚ
  time_completed : ℚ
deriving DecidableEq

instance : Inhabited TrialTimes := ⟨{ time_started := 0, time_completed := 0 }⟩

/-- Minimum of a nonempty list of rationals (pandas `.min()`). -/
def qMin : List ℚ → ℚ
  | [] => 0
  | [a] => a
  | a :: b :: rest => min a (qMin (b :: rest))

/-- The `time_started_rel` and `time_completed_rel` columns computed by
`early_stopping_exp_to_df`, one pair per trial row. -/
def early_stopping_exp_to_df (trials_df : List TrialTimes) : List (ℚ × ℚ) :=
  let start_time := qMin (trials_df.map TrialTimes.time_started)
  trials_df.map fun t =>
    (t.time_started - start_time, t.time_completed - start_time)

/-! ### Statement abbreviations for the candidate-generation claims -/

/-- Greedy-selection property of `get_next_candidate` at given inputs: the
sample array has `num_samples` rows, each row lies coordinatewise within the
per-parameter bounds, and the returned candidate is the row whose prediction
is least when minimizing and greatest otherwise. -/
def GreedySelectionSpec (parameters : List Parameter) (minimize : Bool)
    (num_samples : ℕ) (predict : List (List ℚ) → List ℚ)
    (unit_samples : List (List ℚ)) (pending_parameters : List Params) : Prop :=
  (samplesOf parameters unit_samples).length = num_samples ∧
  bestIdx minimize (predict (samplesOf parameters unit_samples)) < num_samples ∧
  (∀ row ∈ samplesOf parameters unit_samples,
    row.length = parameters.length ∧
    ∀ i < parameters.length,
      (parameters.getD i (.other "")).lower ≤ row.getD i 0 ∧
      row.getD i 0 ≤ (parameters.getD i (.other "")).upper) ∧
  get_next_candidate parameters minimize num_samples predict unit_samples
      pending_parameters
    = (parameters.map Parameter.name).zip
        ((samplesOf parameters unit_samples).getD
          (bestIdx minimize (predict (samplesOf parameters unit_samples))) []) ∧
  (minimize = true → ∀ j < num_samples,
    (predict (samplesOf parameters unit_samples)).getD
        (bestIdx minimize (predict (samplesOf parameters unit_samples))) 0
      ≤ (predict (samplesOf parameters unit_samples)).getD j 0) ∧
  (minimize = false → ∀ j < num_samples,
    (predict (samplesOf parameters unit_samples)).getD j 0
      ≤ (predict (samplesOf parameters unit_samples)).getD
          (bestIdx minimize (predict (samplesOf parameters unit_samples))) 0)

/-- Keys-and-bounds property of the candidate dict at given inputs: its keys
are exactly the parameter names in order, and each value lies in the closed
interval of its parameter. -/
def CandidateKeysBoundsSpec (parameters : List Parameter) (minimize : Bool)
    (num_samples : ℕ) (predict : List (List ℚ) → List ℚ)
    (unit_samples : List (List ℚ)) (pending_parameters : List Params) : Prop :=
  (get_next_candidate parameters minimize num_samples predict unit_samples
      pending_parameters).map Prod.fst = parameters.map Parameter.name ∧
  (get_next_candidate parameters minimize num_samples predict unit_samples
      pending_parameters).length = parameters.length ∧
  ∀ i < parameters.length,
    (parameters.getD i (.other "")).lower ≤
      ((get_next_candidate parameters minimize num_samples predict unit_samples
          pending_parameters).getD i ("", 0)).2 ∧
    ((get_next_candidate parameters minimize num_samples predict unit_samples
        pending_parameters).getD i ("", 0)).2 ≤
      (parameters.getD i (.other "")).upper

/-- Trace property of the optimization loop: 15 iterations, each a
`get_next_trial` call followed by one `complete_trial` call on the returned
trial index with the evaluation of the returned parameterization, where
`evaluate` pairs the hartmann6 value with a SEM of 0. -/
def LoopTraceSpec (hartmann6 : List (Option ℚ) → ℚ)
    (trace : List CallEvent) : Prop :=
  trace.length = 2 * 15 ∧
  trace.countP CallEvent.isGetNext = 15 ∧
  trace.countP CallEvent.isComplete = 15 ∧
  (∀ k < 15, ∃ p i,
    trace.getD (2 * k) default = CallEvent.getNext p i ∧
    trace.getD (2 * k + 1) default = CallEvent.complete i (evaluate hartmann6 p)) ∧
  ∀ p, evaluate hartmann6 p =
    [("hartmann6",
      hartmann6 ((List.range 6).map fun i => p.lookup ("x" ++ toString (i + 1))),
      0)]

/-- Relative-time property of `early_stopping_exp_to_df`: every
`time_started_rel` is nonnegative, completion-after-start trials have
`time_started_rel ≤ time_completed_rel`, and the least `time_started_rel`
is 0. -/
def RelativeTimesSpec (trials_df : List TrialTimes) : Prop :=
  (∀ i < trials_df.length,
    0 ≤ ((early_stopping_exp_to_df trials_df).getD i (0, 0)).1 ∧
    ((trials_df.getD i default).time_started ≤
        (trials_df.getD i default).time_completed →
      ((early_stopping_exp_to_df trials_df).getD i (0, 0)).1 ≤
        ((early_stopping_exp_to_df trials_df).getD i (0, 0)).2)) ∧
  qMin ((early_stopping_exp_to_df trials_df).map Prod.fst) = 0

/-! ### Concrete inputs used to evaluate the embedded code -/

/-- An experiment with one range parameter, one metric and one COMPLETED
trial whose arm has `x1 = 1/2`. -/
def exOneCompleted : Experiment :=
  { search_space :=
      { parameters := [.range "x1" 0 1], parameter_constraints := [] }
    optimization_config := { metrics := ["m"], minimize := true }
    trials :=
      [{ index := 0, status := .COMPLETED,
         arm := { parameters := [("x1", 1 / 2)] } }] }

/-- Data with one observation: trial 0 has mean 5 on metric `m`. -/
def dataOneCompleted : Data :=
  { df := [{ trial_index := 0, metric_name := "m", mean := 5 }] }

/-- A freshly initialized node state (as after `__init__`). -/
def initState : NodeState :=
  { num_samples := 128
    regressor := { trainX := [], trainY := [] }
    parameters := none
    minimize := none
    fit_time_since_gen := 0 }

/-- An experiment whose optimization config has two metrics. -/
def exTwoMetrics : Experiment :=
  { search_space :=
      { parameters := [.range "x1" 0 1], parameter_constraints := [] }
    optimization_config := { metrics := ["m1", "m2"], minimize := true }
    trials := [] }

/-- A trivial client over state `ℕ`, used to instantiate the loop theorem. -/
def clientW : AxClient ℕ :=
  { get_next_trial := fun s => (([("x1", 0)], s), s + 1)
    complete_trial := fun s _ _ => s }

/-- A constant stand-in for the library's `hartmann6`. -/
def hartmannW : List (Option ℚ) → ℚ := fun _ => 0

/-- Concrete parameters for the candidate-generation witnesses. -/
def paramsW : List Parameter := [.range "x1" 0 1]

/-- Concrete unit draws for the candidate-generation witnesses. -/
def unitW : List (List ℚ) := [[1 / 2], [1 / 4]]

/-- A concrete prediction function: the first coordinate of each sample. -/
def predictW : List (List ℚ) → List ℚ := fun samples =>
  samples.map fun row => row.headD 0

/-- Concrete `map_df` rows for the savings witness. -/
def mapDfW : List (ℕ × ℕ) := [(0, 10), (1, 5), (1, 7)]

/-- Concrete trial times for the relative-time witness. -/
def trialsDfW : List TrialTimes :=
  [{ time_started := 10, time_completed := 20 },
   { time_started := 5, time_completed := 30 }]

/-! ## Theorems -/

/-- Python `==` between an `(int, Enum)` member and a `str` is `False`. -/
theorem pyEq_int_str (n : Int) (s : String) : pyEq (.int n) (.str s) = false := rfl

/-- The trial loop of `update_generator_state` never fills a row: its guard
compares a `TrialStatus` with the string `"COMPLETED"`, which is `False` for
every trial, so the loop returns the arrays unchanged. -/
theorem fillLoop_eq_ok (data : Data) (parameter_names : List String)
    (metric0 : String) :
    ∀ (trials : List Trial) (x : List (List ℚ)) (y : List ℚ),
      fillLoop data parameter_names metric0 trials x y = .ok (x, y)
  | [], _, _ => rfl
  | trial :: rest, x, y => by
    rw [fillLoop, pyEq_int_str]
    simp only [Bool.false_eq_true, if_false]
    exact fillLoop_eq_ok data parameter_names metric0 rest x y

/-- On experiments passing all three precondition checks,
`update_generator_state` returns normally; the regressor is fit on the
all-zero arrays (a consequence of the failing status comparison), and the
`parameters` and `minimize` fields are set from the experiment. -/
theorem update_generator_state_success (experiment : Experiment) (data : Data)
    (s : NodeState)
    (h1 : experiment.search_space.parameters.any (fun p => !p.isRange) = false)
    (h2 : experiment.search_space.parameter_constraints = [])
    (h3 : experiment.optimization_config.metrics.length = 1) :
    update_generator_state experiment data s =
      ({ s with
          regressor :=
            { trainX := List.replicate
                ((experiment.trials.filter fun t => t.status == .COMPLETED).length)
                (List.replicate experiment.search_space.parameters.length (0 : ℚ))
              trainY := List.replicate
                ((experiment.trials.filter fun t => t.status == .COMPLETED).length)
                (0 : ℚ) }
          parameters := some experiment.search_space.parameters
          minimize := some experiment.optimization_config.minimize },
        none) := by
  unfold update_generator_state
  simp [h1, h2, h3, fillLoop_eq_ok]

/-- C1 (code bug evidence): on an experiment with a single COMPLETED trial
whose arm has `x1 = 1/2` and whose observed mean is 5, the call returns
normally but fits the regressor on the all-zero arrays `[[0]]`, `[0]`
instead of the trial's data `[[1/2]]`, `[5]`: the guard
`trial.status == "COMPLETED"` compares an `(int, Enum)` with a `str` and is
never true. -/
theorem c1_fit_ignores_completed_trials :
    (update_generator_state exOneCompleted dataOneCompleted initState).2
      = none ∧
    (update_generator_state exOneCompleted dataOneCompleted
        initState).1.regressor.trainX = [[0]] ∧
    (update_generator_state exOneCompleted dataOneCompleted
        initState).1.regressor.trainY = [0] ∧
    [[(0 : ℚ)]] ≠ [[(1 : ℚ) / 2]] ∧ [(0 : ℚ)] ≠ [(5 : ℚ)] := by
  refine ⟨rfl, rfl, rfl, by norm_num, by norm_num⟩

/-- C5: the early-stopping strategy is configured with percentile threshold
70, min progression 0.3, min curves 5, no ignored trials and normalized
progressions, and the scheduler options carry the evaluation budget (6 under
`SMOKE_TEST`, 15 otherwise) and 5 max pending trials; the strategy is pure
configuration, its logic lives in the library. -/
theorem c5_scheduler_configuration :
    percentile_early_stopping_strategy.percentile_threshold = 70 ∧
    percentile_early_stopping_strategy.min_progression = 3 / 10 ∧
    percentile_early_stopping_strategy.min_curves = 5 ∧
    percentile_early_stopping_strategy.trial_indices_to_ignore = none ∧
    percentile_early_stopping_strategy.normalize_progressions = true ∧
    (scheduler_options true).total_trials = 6 ∧
    (scheduler_options false).total_trials = 15 ∧
    (∀ smoke_test, (scheduler_options smoke_test).total_trials
      = total_trials smoke_test) ∧
    (∀ smoke_test, (scheduler_options smoke_test).max_pending_trials = 5) ∧
    ∀ smoke_test, (scheduler_options smoke_test).early_stopping_strategy
      = percentile_early_stopping_strategy :=
  ⟨rfl, rfl, rfl, rfl, rfl, rfl, rfl, fun _ => rfl, fun _ => rfl, fun _ => rfl⟩

/-- C9: `get_next_candidate` never reads `pending_parameters`: with the same
node state and the same random draws, any two pending lists yield the same
candidate. -/
theorem c9_pending_parameters_ignored (parameters : List Parameter)
    (minimize : Bool) (num_samples : ℕ) (predict : List (List ℚ) → List ℚ)
    (unit_samples : List (List ℚ)) (pending1 pending2 : List Params) :
    get_next_candidate parameters minimize num_samples predict unit_samples
        pending1
      = get_next_candidate parameters minimize num_samples predict unit_samples
          pending2 := rfl

/-- C8: `update_generator_state` raises `NotImplementedError` exactly when
the search space has a non-range parameter, or has parameter constraints, or
the optimization config does not have exactly one metric; and whenever it
raises, the node state is unchanged. -/
theorem c8_not_implemented_iff (experiment : Experiment) (data : Data)
    (s : NodeState) :
    ((∃ msg, (update_generator_state experiment data s).2
        = some (.notImplementedError msg)) ↔
      (experiment.search_space.parameters.any (fun p => !p.isRange) = true ∨
        experiment.search_space.parameter_constraints ≠ [] ∨
        experiment.optimization_config.metrics.length ≠ 1)) ∧
    ((update_generator_state experiment data s).2 ≠ none →
      (update_generator_state experiment data s).1 = s) := by
  by_cases h1 : experiment.search_space.parameters.any (fun p => !p.isRange)
      = true
  · unfold update_generator_state
    simp [h1]
  · by_cases h2 : experiment.search_space.parameter_constraints = []
    · by_cases h3 : experiment.optimization_config.metrics.length = 1
      · rw [update_generator_state_success experiment data s
          (Bool.not_eq_true _ ▸ h1) h2 h3]
        simp [h1, h2, h3]
      · unfold update_generator_state
        simp [Bool.not_eq_true _ ▸ h1, h2, h3]
    · unfold update_generator_state
      simp [Bool.not_eq_true _ ▸ h1, h2]

/-- C8 witness: on the two-metric experiment the call raises
`NotImplementedError` and leaves the state unchanged. -/
theorem c8_not_implemented_iff_witness :
    (∃ msg, (update_generator_state exTwoMetrics dataOneCompleted initState).2
      = some (.notImplementedError msg)) ∧
    (update_generator_state exTwoMetrics dataOneCompleted initState).1
      = initState :=
  ⟨(c8_not_implemented_iff exTwoMetrics dataOneCompleted initState).1.mpr
      (Or.inr (Or.inr (by decide))),
    (c8_not_implemented_iff exTwoMetrics dataOneCompleted initState).2
      (by decide)⟩

/-- C10: whenever `update_generator_state` returns normally, the
`num_samples` and `fit_time_since_gen` fields are unchanged. -/
theorem c10_frame_num_samples_fit_time (experiment : Experiment) (data : Data)
    (s : NodeState)
    (h : (update_generator_state experiment data s).2 = none) :
    (update_generator_state experiment data s).1.num_samples = s.num_samples ∧
    (update_generator_state experiment data s).1.fit_time_since_gen
      = s.fit_time_since_gen := by
  by_cases h1 : experiment.search_space.parameters.any (fun p => !p.isRange)
      = true
  · exfalso
    unfold update_generator_state at h
    simp [h1] at h
  · by_cases h2 : experiment.search_space.parameter_constraints = []
    · by_cases h3 : experiment.optimization_config.metrics.length = 1
      · rw [update_generator_state_success experiment data s
          (Bool.not_eq_true _ ▸ h1) h2 h3]
        exact ⟨rfl, rfl⟩
      · exfalso
        unfold update_generator_state at h
        simp [Bool.not_eq_true _ ▸ h1, h2, h3] at h
    · exfalso
      unfold update_generator_state at h
      simp [Bool.not_eq_true _ ▸ h1, h2] at h

/-- C10 witness: a normally returning call on the one-completed-trial
experiment preserves `num_samples` and `fit_time_since_gen`. -/
theorem c10_frame_num_samples_fit_time_witness :
    (update_generator_state exOneCompleted dataOneCompleted
        initState).1.num_samples = initState.num_samples ∧
    (update_generator_state exOneCompleted dataOneCompleted
        initState).1.fit_time_since_gen = initState.fit_time_since_gen :=
  c10_frame_num_samples_fit_time exOneCompleted dataOneCompleted initState
    (by decide)

/-! ### Lemmas about `argminIdx` / `argmaxIdx` -/

/-- On a nonempty list, `argminIdx` is a valid index. -/
theorem argminIdx_lt_length : ∀ (l : List ℚ), l ≠ [] → argminIdx l < l.length
  | [], h => absurd rfl h
  | [_], _ => by simp [argminIdx]
  | a :: b :: rest, _ => by
    have ih := argminIdx_lt_length (b :: rest) (by simp)
    rw [argminIdx]
    by_cases h : (b :: rest).getD (argminIdx (b :: rest)) 0 < a
    · rw [if_pos h]
      simpa using Nat.succ_lt_succ ih
    · rw [if_neg h]
      simp

/-- The entry at `argminIdx` is a minimum of the list. -/
theorem argminIdx_min : ∀ (l : List ℚ), ∀ j < l.length,
    l.getD (argminIdx l) 0 ≤ l.getD j 0
  | [], j, hj => by simp at hj
  | [a], j, hj => by
    have : j = 0 := by simpa using hj
    simp [argminIdx, this]
  | a :: b :: rest, j, hj => by
    have ih := argminIdx_min (b :: rest)
    rw [argminIdx]
    by_cases h : (b :: rest).getD (argminIdx (b :: rest)) 0 < a
    · rw [if_pos h]
      cases j with
      | zero => simpa using le_of_lt h
      | succ j =>
        have hj1 : j < (b :: rest).length := by simpa using hj
        simpa using ih j hj1
    · rw [if_neg h]
      push_neg at h
      cases j with
      | zero => simp
      | succ j =>
        have hj1 : j < (b :: rest).length := by simpa using hj
        simpa using le_trans h (ih j hj1)

/-- On a nonempty list, `argmaxIdx` is a valid index. -/
theorem argmaxIdx_lt_length : ∀ (l : List ℚ), l ≠ [] → argmaxIdx l < l.length
  | [], h => absurd rfl h
  | [_], _ => by simp [argmaxIdx]
  | a :: b :: rest, _ => by
    have ih := argmaxIdx_lt_length (b :: rest) (by simp)
    rw [argmaxIdx]
    by_cases h : a < (b :: rest).getD (argmaxIdx (b :: rest)) 0
    · rw [if_pos h]
      simpa using Nat.succ_lt_succ ih
    · rw [if_neg h]
      simp

/-- The entry at `argmaxIdx` is a maximum of the list. -/
theorem argmaxIdx_max : ∀ (l : List ℚ), ∀ j < l.length,
    l.getD j 0 ≤ l.getD (argmaxIdx l) 0
  | [], j, hj => by simp at hj
  | [a], j, hj => by
    have : j = 0 := by simpa using hj
    simp [argmaxIdx, this]
  | a :: b :: rest, j, hj => by
    have ih := argmaxIdx_max (b :: rest)
    rw [argmaxIdx]
    by_cases h : a < (b :: rest).getD (argmaxIdx (b :: rest)) 0
    · rw [if_pos h]
      cases j with
      | zero => simpa using le_of_lt h
      | succ j =>
        have hj1 : j < (b :: rest).length := by simpa using hj
        simpa using ih j hj1
    · rw [if_neg h]
      push_neg at h
      cases j with
      | zero => simp
      | succ j =>
        have hj1 : j < (b :: rest).length := by simpa using hj
        simpa using le_trans (ih j hj1) h

/-- One sampled row: its length and its coordinatewise bounds. -/
theorem sampleRow_spec (parameters : List Parameter) (u : List ℚ)
    (hlen : u.length = parameters.length)
    (hu : ∀ x ∈ u, 0 ≤ x ∧ x < 1)
    (hb : ∀ p ∈ parameters, p.lower ≤ p.upper) :
    (sampleRow parameters u).length = parameters.length ∧
    ∀ i < parameters.length,
      (parameters.getD i (.other "")).lower ≤ (sampleRow parameters u).getD i 0 ∧
      (sampleRow parameters u).getD i 0 ≤ (parameters.getD i (.other "")).upper := by
  have hzlen : (parameters.zip u).length = parameters.length := by
    rw [List.length_zip, hlen, min_self]
  have hrlen : (sampleRow parameters u).length = parameters.length := by
    rw [sampleRow, List.length_map, hzlen]
  refine ⟨hrlen, fun i hi => ?_⟩
  have hiu : i < u.length := hlen ▸ hi
  have hiz : i < (parameters.zip u).length := hzlen ▸ hi
  have hir : i < (sampleRow parameters u).length := hrlen ▸ hi
  have hget : (sampleRow parameters u).getD i 0
      = (parameters.getD i (.other "")).lower
        + ((parameters.getD i (.other "")).upper
            - (parameters.getD i (.other "")).lower) * u.getD i 0 := by
    rw [List.getD_eq_getElem _ _ hir, List.getD_eq_getElem _ _ hi,
      List.getD_eq_getElem _ _ hiu]
    simp only [sampleRow, List.getElem_map, List.getElem_zip]
  have hmem : u.getD i 0 ∈ u := by
    rw [List.getD_eq_getElem _ _ hiu]
    exact List.getElem_mem hiu
  have hpmem : parameters.getD i (.other "") ∈ parameters := by
    rw [List.getD_eq_getElem _ _ hi]
    exact List.getElem_mem hi
  obtain ⟨hu0, hu1⟩ := hu _ hmem
  have hlu := hb _ hpmem
  constructor
  · rw [hget]
    nlinarith
  · rw [hget]
    nlinarith

/-- Shared workhorse for the candidate-generation claims: the full
greedy-selection property under the shape hypotheses. -/
theorem greedy_selection_aux (parameters : List Parameter)
    (minimize : Bool) (num_samples : ℕ) (predict : List (List ℚ) → List ℚ)
    (unit_samples : List (List ℚ)) (pending_parameters : List Params)
    (hn : 0 < num_samples)
    (hrows : unit_samples.length = num_samples)
    (hunit : ∀ row ∈ unit_samples, row.length = parameters.length ∧
      ∀ x ∈ row, 0 ≤ x ∧ x < 1)
    (hb : ∀ p ∈ parameters, p.lower ≤ p.upper)
    (hpred : (predict (samplesOf parameters unit_samples)).length
      = num_samples) :
    GreedySelectionSpec parameters minimize num_samples predict unit_samples
      pending_parameters := by
  have hslen : (samplesOf parameters unit_samples).length = num_samples := by
    rw [samplesOf, List.length_map, hrows]
  have hpne : predict (samplesOf parameters unit_samples) ≠ [] := by
    intro hcon
    rw [hcon] at hpred
    simp at hpred
    omega
  have hbest : bestIdx minimize (predict (samplesOf parameters unit_samples))
      < num_samples := by
    rw [bestIdx]
    cases minimize with
    | true => simpa [hpred] using
        argminIdx_lt_length (predict (samplesOf parameters unit_samples)) hpne
    | false => simpa [hpred] using
        argmaxIdx_lt_length (predict (samplesOf parameters unit_samples)) hpne
  refine ⟨hslen, hbest, ?_, rfl, ?_, ?_⟩
  · intro row hrow
    rw [samplesOf] at hrow
    obtain ⟨u, hu, rfl⟩ := List.mem_map.mp hrow
    obtain ⟨hulen, hubd⟩ := hunit u hu
    exact sampleRow_spec parameters u hulen hubd hb
  · intro hmin j hj
    have hbm : bestIdx minimize (predict (samplesOf parameters unit_samples))
        = argminIdx (predict (samplesOf parameters unit_samples)) := by
      simp [bestIdx, hmin]
    rw [hbm]
    exact argminIdx_min (predict (samplesOf parameters unit_samples)) j
      (hpred ▸ hj)
  · intro hmax j hj
    have hbm : bestIdx minimize (predict (samplesOf parameters unit_samples))
        = argmaxIdx (predict (samplesOf parameters unit_samples)) := by
      simp [bestIdx, hmax]
    rw [hbm]
    exact argmaxIdx_max (predict (samplesOf parameters unit_samples)) j
      (hpred ▸ hj)

/-- C2: with the node state produced by `update_generator_state` (range
parameters, a `minimize` flag), `num_samples` unit draws in `[0, 1)` mapped
affinely into the parameter boxes, and a regressor prediction per sample,
`get_next_candidate` returns the sample whose prediction is least when
minimizing and greatest otherwise. -/
theorem c2_greedy_over_uniform_samples (parameters : List Parameter)
    (minimize : Bool) (num_samples : ℕ) (predict : List (List ℚ) → List ℚ)
    (unit_samples : List (List ℚ)) (pending_parameters : List Params)
    (hn : 0 < num_samples)
    (hrows : unit_samples.length = num_samples)
    (hunit : ∀ row ∈ unit_samples, row.length = parameters.length ∧
      ∀ x ∈ row, 0 ≤ x ∧ x < 1)
    (hb : ∀ p ∈ parameters, p.lower ≤ p.upper)
    (hpred : (predict (samplesOf parameters unit_samples)).length
      = num_samples) :
    GreedySelectionSpec parameters minimize num_samples predict unit_samples
      pending_parameters :=
  greedy_selection_aux parameters minimize num_samples predict unit_samples
    pending_parameters hn hrows hunit hb hpred

/-- C2 witness: one parameter `x1` in `[0, 1]`, two unit draws `1/2`, `1/4`,
prediction = first coordinate, minimizing. -/
theorem c2_greedy_over_uniform_samples_witness :
    GreedySelectionSpec paramsW true 2 predictW unitW [] :=
  c2_greedy_over_uniform_samples paramsW true 2 predictW unitW []
    (by decide) rfl (by norm_num [unitW, paramsW])
    (by norm_num [paramsW, Parameter.lower, Parameter.upper]) rfl

/-- C3: the candidate dict returned by `get_next_candidate` has exactly the
parameter names of the recorded search space as keys, in order, and each
value lies in the closed interval `[lower, upper]` of its parameter. -/
theorem c3_candidate_keys_and_bounds (parameters : List Parameter)
    (minimize : Bool) (num_samples : ℕ) (predict : List (List ℚ) → List ℚ)
    (unit_samples : List (List ℚ)) (pending_parameters : List Params)
    (hn : 0 < num_samples)
    (hrows : unit_samples.length = num_samples)
    (hunit : ∀ row ∈ unit_samples, row.length = parameters.length ∧
      ∀ x ∈ row, 0 ≤ x ∧ x < 1)
    (hb : ∀ p ∈ parameters, p.lower ≤ p.upper)
    (hpred : (predict (samplesOf parameters unit_samples)).length
      = num_samples) :
    CandidateKeysBoundsSpec parameters minimize num_samples predict
      unit_samples pending_parameters := by
  obtain ⟨hslen, hbest, hrowsp, hcand, -, -⟩ :=
    greedy_selection_aux parameters minimize num_samples predict
      unit_samples pending_parameters hn hrows hunit hb hpred
  have hbs : bestIdx minimize (predict (samplesOf parameters unit_samples))
      < (samplesOf parameters unit_samples).length := hslen ▸ hbest
  have hrowmem : (samplesOf parameters unit_samples).getD
      (bestIdx minimize (predict (samplesOf parameters unit_samples))) []
      ∈ samplesOf parameters unit_samples := by
    rw [List.getD_eq_getElem _ _ hbs]
    exact List.getElem_mem hbs
  obtain ⟨hrlen, hrbd⟩ := hrowsp _ hrowmem
  have hnlen : (parameters.map Parameter.name).length = parameters.length :=
    List.length_map _ _
  rw [CandidateKeysBoundsSpec, hcand]
  refine ⟨?_, ?_, fun i hi => ?_⟩
  · exact List.map_fst_zip _ _ (by rw [hnlen, hrlen])
  · rw [List.length_zip, hnlen, hrlen, min_self]
  · have hiz : i < ((parameters.map Parameter.name).zip
        ((samplesOf parameters unit_samples).getD
          (bestIdx minimize (predict (samplesOf parameters unit_samples)))
          [])).length := by
      rw [List.length_zip, hnlen, hrlen, min_self]
      exact hi
    have hirow : i < ((samplesOf parameters unit_samples).getD
        (bestIdx minimize (predict (samplesOf parameters unit_samples)))
        []).length := hrlen ▸ hi
    rw [List.getD_eq_getElem _ _ hiz, List.getElem_zip]
    have hbd := hrbd i hi
    rw [List.getD_eq_getElem _ _ hirow] at hbd
    simpa using hbd

/-- C3 witness: one parameter `x1` in `[0, 1]`, two unit draws `1/2`, `1/4`,
prediction = first coordinate, minimizing. -/
theorem c3_candidate_keys_and_bounds_witness :
    CandidateKeysBoundsSpec paramsW true 2 predictW unitW [] :=
  c3_candidate_keys_and_bounds paramsW true 2 predictW unitW []
    (by decide) rfl (by norm_num [unitW, paramsW])
    (by norm_num [paramsW, Parameter.lower, Parameter.upper]) rfl

/-! ### The optimization loop trace -/

/-- Trace of `n` loop iterations: `2 n` calls, alternating `get_next_trial`
and a matching `complete_trial` whose raw data is the evaluation of the
parameterization just returned. -/
theorem runLoop_trace {σ : Type} (client : AxClient σ)
    (hartmann6 : List (Option ℚ) → ℚ) :
    ∀ (n : ℕ) (s : σ),
      (runLoop client hartmann6 n s).1.length = 2 * n ∧
      (runLoop client hartmann6 n s).1.countP CallEvent.isGetNext = n ∧
      (runLoop client hartmann6 n s).1.countP CallEvent.isComplete = n ∧
      ∀ k < n, ∃ p i,
        (runLoop client hartmann6 n s).1.getD (2 * k) default
          = CallEvent.getNext p i ∧
        (runLoop client hartmann6 n s).1.getD (2 * k + 1) default
          = CallEvent.complete i (evaluate hartmann6 p)
  | 0, s => by simp [runLoop]
  | n + 1, s => by
    obtain ⟨ih1, ih2, ih3, ih4⟩ := runLoop_trace client hartmann6 n
      (client.complete_trial (client.get_next_trial s).2
        (client.get_next_trial s).1.2
        (evaluate hartmann6 (client.get_next_trial s).1.1))
    refine ⟨?_, ?_, ?_, ?_⟩
    · simp only [runLoop, List.length_cons]
      omega
    · simp only [runLoop, List.countP_cons, CallEvent.isGetNext, ih2]
      simp
    · simp only [runLoop, List.countP_cons, CallEvent.isComplete, ih3]
      simp
    · intro k hk
      cases k with
      | zero =>
        refine ⟨(client.get_next_trial s).1.1, (client.get_next_trial s).1.2,
          ?_, ?_⟩ <;> simp [runLoop]
      | succ k =>
        obtain ⟨p, i, hp, hc⟩ := ih4 k (by omega)
        refine ⟨p, i, ?_, ?_⟩
        · have h2 : 2 * (k + 1) = 2 * k + 1 + 1 := by ring
          rw [h2]
          simpa [runLoop] using hp
        · have h2 : 2 * (k + 1) + 1 = 2 * k + 1 + 1 + 1 := by ring
          rw [h2]
          simpa [runLoop] using hc

/-- C4: the optimization loop performs exactly 15 iterations; each calls
`get_next_trial` once and then `complete_trial` once, on the returned trial
index, with raw data equal to the evaluation of the returned
parameterization (the hartmann6 value paired with SEM 0). -/
theorem c4_fifteen_iteration_loop {σ : Type} (client : AxClient σ)
    (hartmann6 : List (Option ℚ) → ℚ) (s : σ) :
    LoopTraceSpec hartmann6 (optimizationLoop client hartmann6 s).1 := by
  obtain ⟨h1, h2, h3, h4⟩ := runLoop_trace client hartmann6 15 s
  exact ⟨h1, h2, h3, h4, fun p => rfl⟩

/-- C4 witness: the loop trace property at a concrete trivial client. -/
theorem c4_fifteen_iteration_loop_witness :
    LoopTraceSpec hartmannW (optimizationLoop clientW hartmannW 0).1 :=
  c4_fifteen_iteration_loop clientW hartmannW 0

/-! ### The savings estimate -/

/-- C6: the savings estimate equals
`1 - sum(max steps) / (first trial's max step * number of trials)`, and when
the first trial's maximum step dominates all trials' maxima and is positive,
the estimate lies in `[0, 1]`. -/
theorem c6_savings_formula_and_range (map_df : List (ℕ × ℕ))
    (hne : map_df ≠ [])
    (hdom : ∀ t ∈ trialIndices map_df,
      trialMaxStep map_df t ≤ completed_trial_steps map_df)
    (hpos : 0 < completed_trial_steps map_df) :
    savings map_df
      = 1 - ((trialToMaxSteps map_df).sum : ℚ)
          / ((completed_trial_steps map_df : ℚ)
              * ((trialToMaxSteps map_df).length : ℚ)) ∧
    0 ≤ savings map_df ∧ savings map_df ≤ 1 := by
  have hlen : trialIndices map_df ≠ [] := by
    rw [trialIndices]
    intro hcon
    rw [List.dedup_eq_nil] at hcon
    exact hne (List.map_eq_nil_iff.mp hcon)
  have hsum : (trialToMaxSteps map_df).sum
      ≤ (trialToMaxSteps map_df).length * completed_trial_steps map_df := by
    have hb := List.sum_le_card_nsmul (trialToMaxSteps map_df)
      (completed_trial_steps map_df) ?_
    · simpa [smul_eq_mul] using hb
    · intro x hx
      rw [trialToMaxSteps] at hx
      obtain ⟨t, ht, rfl⟩ := List.mem_map.mp hx
      exact hdom t ht
  have hn1 : 0 < (trialToMaxSteps map_df).length := by
    rw [trialToMaxSteps, List.length_map]
    exact List.length_pos.mpr hlen
  have hden : (0 : ℚ) < (completed_trial_steps map_df : ℚ)
      * ((trialToMaxSteps map_df).length : ℚ) :=
    mul_pos (by exact_mod_cast hpos) (by exact_mod_cast hn1)
  have hsumq : ((trialToMaxSteps map_df).sum : ℚ)
      ≤ (completed_trial_steps map_df : ℚ)
        * ((trialToMaxSteps map_df).length : ℚ) := by
    rw [mul_comm]
    exact_mod_cast hsum
  have hr1 : ((trialToMaxSteps map_df).sum : ℚ)
      / ((completed_trial_steps map_df : ℚ)
          * ((trialToMaxSteps map_df).length : ℚ)) ≤ 1 :=
    (div_le_one hden).mpr hsumq
  have hr0 : (0 : ℚ) ≤ ((trialToMaxSteps map_df).sum : ℚ)
      / ((completed_trial_steps map_df : ℚ)
          * ((trialToMaxSteps map_df).length : ℚ)) :=
    div_nonneg (by positivity) (le_of_lt hden)
  refine ⟨rfl, ?_, ?_⟩
  · unfold savings
    linarith
  · unfold savings
    linarith

/-- C6 witness: three rows, trial 0 peaking at step 10 and trial 1 at 7. -/
theorem c6_savings_formula_and_range_witness :
    savings mapDfW
      = 1 - ((trialToMaxSteps mapDfW).sum : ℚ)
          / ((completed_trial_steps mapDfW : ℚ)
              * ((trialToMaxSteps mapDfW).length : ℚ)) ∧
    0 ≤ savings mapDfW ∧ savings mapDfW ≤ 1 :=
  c6_savings_formula_and_range mapDfW (by decide) (by decide) (by decide)

/-! ### Relative trial times -/

/-- `qMin` is a lower bound of its list. -/
theorem qMin_le : ∀ (l : List ℚ), ∀ x ∈ l, qMin l ≤ x
  | [], x, hx => absurd hx (List.not_mem_nil x)
  | [a], x, hx => by
    have hxa : x = a := List.mem_singleton.mp hx
    subst hxa
    simp [qMin]
  | a :: b :: rest, x, hx => by
    have hq : qMin (a :: b :: rest) = min a (qMin (b :: rest)) := rfl
    rcases List.mem_cons.mp hx with rfl | hx2
    · rw [hq]
      exact min_le_left _ _
    · rw [hq]
      exact le_trans (min_le_right _ _) (qMin_le (b :: rest) x hx2)

/-- `qMin` commutes with shifting every entry by a constant. -/
theorem qMin_map_sub (c : ℚ) : ∀ (l : List ℚ), l ≠ [] →
    qMin (l.map fun x => x - c) = qMin l - c
  | [], h => absurd rfl h
  | [a], _ => by simp [qMin]
  | a :: b :: rest, _ => by
    have ih := qMin_map_sub c (b :: rest) (by simp)
    have h1 : qMin (a :: b :: rest) = min a (qMin (b :: rest)) := rfl
    have h2 : qMin ((a :: b :: rest).map fun x => x - c)
        = min (a - c) (qMin ((b :: rest).map fun x => x - c)) := rfl
    rw [h2, ih, h1, min_sub_sub_right]

/-- C7: every `time_started_rel` is nonnegative, each trial completing no
earlier than it started has `time_started_rel ≤ time_completed_rel`, and the
minimum `time_started_rel` over trials is 0. -/
theorem c7_relative_times (trials_df : List TrialTimes)
    (hne : trials_df ≠ []) : RelativeTimesSpec trials_df := by
  have hmne : trials_df.map TrialTimes.time_started ≠ [] := by
    simpa using hne
  have hlen : (early_stopping_exp_to_df trials_df).length
      = trials_df.length := by
    simp [early_stopping_exp_to_df]
  have hget : ∀ i, i < trials_df.length →
      (early_stopping_exp_to_df trials_df).getD i (0, 0)
        = ((trials_df.getD i default).time_started
            - qMin (trials_df.map TrialTimes.time_started),
           (trials_df.getD i default).time_completed
            - qMin (trials_df.map TrialTimes.time_started)) := by
    intro i hi
    have hie : i < (early_stopping_exp_to_df trials_df).length := by
      rw [hlen]
      exact hi
    rw [List.getD_eq_getElem _ _ hie, List.getD_eq_getElem _ _ hi]
    simp [early_stopping_exp_to_df]
  refine ⟨fun i hi => ?_, ?_⟩
  · rw [hget i hi]
    dsimp only
    have hmem : (trials_df.getD i default).time_started
        ∈ trials_df.map TrialTimes.time_started := by
      rw [List.getD_eq_getElem _ _ hi]
      exact List.mem_map_of_mem _ (List.getElem_mem hi)
    have hqle := qMin_le _ _ hmem
    exact ⟨by linarith, fun hcomp => by linarith⟩
  · have hmaps : (early_stopping_exp_to_df trials_df).map Prod.fst
        = (trials_df.map TrialTimes.time_started).map
            (fun x => x - qMin (trials_df.map TrialTimes.time_started)) := by
      simp [early_stopping_exp_to_df, List.map_map]
    rw [hmaps, qMin_map_sub _ _ hmne, sub_self]

/-- C7 witness: two trials started at 10 and 5, completed at 20 and 30. -/
theorem c7_relative_times_witness : RelativeTimesSpec trialsDfW :=
  c7_relative_times trialsDfW (by decide)

end AxTutorial
